import Mathlib

/-!
Verification of the salvo CORS middleware (crates/cors/src/lib.rs).

The crate root `lib.rs` is embedded faithfully below.  The seven policy
submodules (`allow_credentials`, `allow_headers`, `allow_methods`,
`allow_origin`, `expose_headers`, `max_age`, `vary`) are declared by
`lib.rs` but their files are not part of the sources at hand; their
behaviour is modelled from the specification, as marked on each
definition.

Modelling conventions:
- Header values (`http::HeaderValue`) are raw byte strings: `List UInt8`.
- A header map (`http::HeaderMap`) is a multimap modelled as an ordered
  list of (name, value) pairs.  `HeaderMap::extend` with an iterator of
  pairs whose names are absent from the map behaves as concatenation,
  which is how every `extend` in `CorsHandler::handle` is used (the map
  starts empty and each policy contributes a distinct name).
- Panics (`assert!`, `unreachable!`) are modelled as `Except.error` with
  the panic message; `ctrl.call_next` is modelled as a boolean flag
  recording that the request was forwarded to the next pipeline stage.
-/

namespace SalvoCors

/-- Raw bytes of a header value, compared byte for byte. -/
abbrev Bytes := List UInt8

/-- ASCII bytes of a Lean string literal (used only to write down
concrete header values such as the wildcard and the default vary set). -/
def strBytes (s : String) : Bytes := s.data.map (fun c => UInt8.ofNat c.toNat)

/-- The header names that appear in the CORS middleware, plus an escape
constructor for arbitrary other names. -/
inductive HeaderName where
  | origin
  | vary
  | accessControlAllowOrigin
  | accessControlAllowCredentials
  | accessControlAllowMethods
  | accessControlAllowHeaders
  | accessControlMaxAge
  | accessControlExposeHeaders
  | accessControlRequestMethod
  | accessControlRequestHeaders
  | other (name : Bytes)
  deriving DecidableEq

/-- A header value. -/
abbrev HeaderValue := Bytes

/-- A response/request header multimap: ordered (name, value) pairs. -/
abbrev HeaderMap := List (HeaderName × HeaderValue)

/-- HTTP request methods relevant to the middleware. -/
inductive Method where
  | options
  | get
  | post
  | otherMethod (name : Bytes)
  deriving DecidableEq

/-- The request data `CorsHandler::handle` reads: the method and the
request headers. -/
structure Request where
  method : Method
  headers : HeaderMap
  deriving DecidableEq

/-- `req.headers().get(name)`: the first value stored under `name`. -/
def Request.getHeader (req : Request) (n : HeaderName) : Option HeaderValue :=
  (req.headers.find? (fun p => p.1 == n)).map (fun p => p.2)

/-- `static WILDCARD: HeaderValue = HeaderValue::from_static("*")` (lib.rs line 57). -/
def WILDCARD : HeaderValue := strBytes "*"

/-- The response data the middleware mutates: a settable status code and
the outgoing header multimap. -/
structure Response where
  status_code : Option Nat
  headers : HeaderMap
  deriving DecidableEq

/-- A fresh response, as the test client starts with. -/
def Response.new : Response := { status_code := none, headers := [] }

/-- `separated_by_commas` (lib.rs lines 65-82): `None` on an empty
iterator; otherwise the values joined with single `,` (byte 44)
separators, starting from the first value and appending `,val` for each
further value. -/
def separated_by_commas (iter : List HeaderValue) : Option HeaderValue :=
  match iter with
  | fst :: rest =>
    some (rest.foldl (fun result val => result ++ (44 : UInt8) :: val) fst)
  | [] => none

/-- One loop iteration of the allocation-counting model of
`separated_by_commas` (lib.rs lines 65-82), for the resource claim.
State is (len, cap, allocs) of the
`BytesMut` buffer: `BytesMut::from(fst.as_bytes())` performs one
allocation with capacity equal to the length of `fst`; each loop
iteration calls `result.reserve(val.len() + 1)`, which reallocates
exactly when the remaining capacity `cap - len` is below the requested
amount.  The `bytes` crate only guarantees the new capacity is at least
`len + additional`, so the growth policy is a parameter `grow`; the
counts proved below hold for the exact-growth instance and the bounds
for every growth policy. -/
def allocStep (grow : Nat → Nat → Nat) (st : Nat × Nat × Nat) (val : HeaderValue) :
    Nat × Nat × Nat :=
  let need := val.length + 1
  if st.2.1 - st.1 < need then (st.1 + need, grow st.1 need, st.2.2 + 1)
  else (st.1 + need, st.2.1, st.2.2)

/-- See `allocStep` for the buffer model: the loop starts after one
allocation of capacity `fst.length` and folds `allocStep` over the
remaining values. -/
def separated_by_commas_alloc_count (grow : Nat → Nat → Nat) : List HeaderValue → Nat
  | [] => 0
  | fst :: rest => (rest.foldl (allocStep grow) (fst.length, fst.length, 1)).2.2

/-- The minimal growth the `bytes` crate documents for `reserve`:
capacity at least `len + additional`. -/
def exactGrow : Nat → Nat → Nat := fun len need => len + need

/-- Modelled from the spec: the `AllowOrigin` policy (module
`allow_origin` is declared by lib.rs but absent from the sources).
Spec section 3: variants `Any`, `Exact(set of allowed origin
byte-strings)`, `Predicate(function: Origin, RequestContext -> bool)`,
`MirrorRequest`. -/
inductive AllowOrigin where
  | any
  | exact (set : List Bytes)
  | predicate (f : Bytes → Request → Bool)
  | mirrorRequest

/-- Modelled from the spec (section 4.1): `Any` always emits the literal
`*`; `Exact` echoes the origin when it is a member of the set;
`Predicate` echoes it when the predicate holds; `MirrorRequest` echoes
it whenever present. -/
def AllowOrigin.to_header : AllowOrigin → Option Bytes → Request → Option (HeaderName × HeaderValue)
  | .any, _, _ => some (.accessControlAllowOrigin, WILDCARD)
  | .exact s, origin, _ =>
    origin.bind (fun o => if o ∈ s then some (.accessControlAllowOrigin, o) else none)
  | .predicate f, origin, req =>
    origin.bind (fun o => if f o req then some (.accessControlAllowOrigin, o) else none)
  | .mirrorRequest, origin, _ => origin.map (fun o => (.accessControlAllowOrigin, o))

/-- Modelled from the spec: statically-`Any` test used by
`ensure_usable_cors_rules`. -/
def AllowOrigin.is_wildcard : AllowOrigin → Bool
  | .any => true
  | _ => false

/-- Modelled from the spec: the mirror-request constructor used by
`Cors::very_permissive`. -/
def AllowOrigin.mirror_request : AllowOrigin := .mirrorRequest

/-- Modelled from the spec: the `AllowCredentials` policy (module
`allow_credentials` absent from the sources).  Spec section 3: boolean
or `Predicate`. -/
inductive AllowCredentials where
  | yes
  | no
  | predicate (f : Bytes → Request → Bool)

/-- Modelled from the spec (section 4.2): the literal `true` entry when
the policy is statically true, or when the predicate evaluates true for
this request/origin pair; nothing otherwise (including when the origin
is absent, for the predicate case). -/
def AllowCredentials.to_header : AllowCredentials → Option Bytes → Request → Option (HeaderName × HeaderValue)
  | .yes, _, _ => some (.accessControlAllowCredentials, strBytes "true")
  | .no, _, _ => none
  | .predicate f, origin, req =>
    origin.bind (fun o =>
      if f o req then some (.accessControlAllowCredentials, strBytes "true") else none)

/-- Modelled from the spec: "statically true" test used by
`ensure_usable_cors_rules`. -/
def AllowCredentials.is_true : AllowCredentials → Bool
  | .yes => true
  | _ => false

/-- Modelled from the spec: the `AllowMethods` policy (module
`allow_methods` absent from the sources).  Spec section 3: `Any`,
`List(ordered tokens)`, `MirrorRequest`. -/
inductive AllowMethods where
  | any
  | list (methods : List Bytes)
  | mirrorRequest

/-- Modelled from the spec (section 4.3): `Any` emits the wildcard;
`List` emits the comma-joined tokens when non-empty; `MirrorRequest`
echoes `Access-Control-Request-Method` when present and non-empty. -/
def AllowMethods.to_header : AllowMethods → Option Bytes → Request → Option (HeaderName × HeaderValue)
  | .any, _, _ => some (.accessControlAllowMethods, WILDCARD)
  | .list ms, _, _ => (separated_by_commas ms).map (fun v => (.accessControlAllowMethods, v))
  | .mirrorRequest, _, req =>
    (req.getHeader .accessControlRequestMethod).bind (fun v =>
      if v = [] then none else some (.accessControlAllowMethods, v))

/-- Modelled from the spec: statically-`Any` test. -/
def AllowMethods.is_wildcard : AllowMethods → Bool
  | .any => true
  | _ => false

/-- Modelled from the spec: the mirror-request constructor used by
`Cors::very_permissive`. -/
def AllowMethods.mirror_request : AllowMethods := .mirrorRequest

/-- Modelled from the spec: the `AllowHeaders` policy (module
`allow_headers` absent from the sources).  Same shape as
`AllowMethods`. -/
inductive AllowHeaders where
  | any
  | list (names : List Bytes)
  | mirrorRequest

/-- Modelled from the spec (section 4.3): like `AllowMethods`, mirroring
`Access-Control-Request-Headers`. -/
def AllowHeaders.to_header : AllowHeaders → Option Bytes → Request → Option (HeaderName × HeaderValue)
  | .any, _, _ => some (.accessControlAllowHeaders, WILDCARD)
  | .list ns, _, _ => (separated_by_commas ns).map (fun v => (.accessControlAllowHeaders, v))
  | .mirrorRequest, _, req =>
    (req.getHeader .accessControlRequestHeaders).bind (fun v =>
      if v = [] then none else some (.accessControlAllowHeaders, v))

/-- Modelled from the spec: statically-`Any` test. -/
def AllowHeaders.is_wildcard : AllowHeaders → Bool
  | .any => true
  | _ => false

/-- Modelled from the spec: the mirror-request constructor used by
`Cors::very_permissive`. -/
def AllowHeaders.mirror_request : AllowHeaders := .mirrorRequest

/-- Modelled from the spec: the `ExposeHeaders` policy (module
`expose_headers` absent from the sources).  Spec section 4.3:
`ExposeHeadersPolicy` has no mirror variant: only `Any` and `List`. -/
inductive ExposeHeaders where
  | any
  | list (names : List Bytes)

/-- Modelled from the spec (section 4.3). -/
def ExposeHeaders.to_header : ExposeHeaders → Option Bytes → Request → Option (HeaderName × HeaderValue)
  | .any, _, _ => some (.accessControlExposeHeaders, WILDCARD)
  | .list ns, _, _ => (separated_by_commas ns).map (fun v => (.accessControlExposeHeaders, v))

/-- Modelled from the spec: statically-`Any` test. -/
def ExposeHeaders.is_wildcard : ExposeHeaders → Bool
  | .any => true
  | _ => false

/-- Modelled from the spec: the `MaxAge` policy (module `max_age`
absent from the sources).  Spec section 3: optional duration in
seconds; absent means the header is omitted. -/
structure MaxAge where
  seconds : Option Nat

/-- Modelled from the spec (section 4.4): the configured duration
rendered as its integer-seconds decimal string, or nothing if unset. -/
def MaxAge.to_header (m : MaxAge) (_origin : Option Bytes) (_req : Request) :
    Option (HeaderName × HeaderValue) :=
  m.seconds.map (fun n => (.accessControlMaxAge, strBytes (toString n)))

/-- `preflight_request_headers` (lib.rs lines 321-328), as the header
values stored by the default `Vary` policy. -/
def preflight_request_headers : List HeaderValue :=
  [strBytes "origin",
   strBytes "access-control-request-method",
   strBytes "access-control-request-headers"]

/-- Modelled from the spec: the `Vary` policy (module `vary` absent
from the sources).  An ordered list of header names (as header
values); default is the three preflight request headers. -/
structure Vary where
  list : List HeaderValue

/-- Modelled from the spec (section 4.5): the configured ordered set. -/
def Vary.values (v : Vary) : List HeaderValue := v.list

/-- The `Cors` configuration aggregate (lib.rs lines 88-96). -/
structure Cors where
  allow_credentials : AllowCredentials
  allow_headers : AllowHeaders
  allow_methods : AllowMethods
  allow_origin : AllowOrigin
  expose_headers : ExposeHeaders
  max_age : MaxAge
  vary : Vary

/-- `Cors::new` (lib.rs lines 107-117): all policies at their defaults.
The defaults of the absent policy modules are modelled from the spec:
empty lists for the list policies (spec: nothing allowed/exposed by
default), credentials off, no max age, and the three preflight request
headers for `Vary` (spec section 3). -/
def Cors.new : Cors :=
  { allow_credentials := .no
    allow_headers := .list []
    allow_methods := .list []
    allow_origin := .exact []
    expose_headers := .list []
    max_age := { seconds := none }
    vary := { list := preflight_request_headers } }

/-- `Cors::permissive` (lib.rs lines 125-131). -/
def Cors.permissive : Cors :=
  { Cors.new with
    allow_headers := .any
    allow_methods := .any
    allow_origin := .any
    expose_headers := .any }

/-- `Cors::very_permissive` (lib.rs lines 142-148): credentials
allowed, the three mirror-request policies, expose headers left at its
default. -/
def Cors.very_permissive : Cors :=
  { Cors.new with
    allow_credentials := .yes
    allow_headers := AllowHeaders.mirror_request
    allow_methods := AllowMethods.mirror_request
    allow_origin := AllowOrigin.mirror_request }

/-- The panic message of the first assertion in
`ensure_usable_cors_rules` (lib.rs lines 244-248). -/
def msgAllowHeaders : String :=
  "Invalid CORS configuration: Cannot combine `Access-Control-Allow-Credentials: true` with `Access-Control-Allow-Headers: *`"

/-- The panic message of the second assertion (lib.rs lines 250-254). -/
def msgAllowMethods : String :=
  "Invalid CORS configuration: Cannot combine `Access-Control-Allow-Credentials: true` with `Access-Control-Allow-Methods: *`"

/-- The panic message of the third assertion (lib.rs lines 256-260). -/
def msgAllowOrigin : String :=
  "Invalid CORS configuration: Cannot combine `Access-Control-Allow-Credentials: true` with `Access-Control-Allow-Origin: *`"

/-- The panic message of the fourth assertion (lib.rs lines 262-266). -/
def msgExposeHeaders : String :=
  "Invalid CORS configuration: Cannot combine `Access-Control-Allow-Credentials: true` with `Access-Control-Expose-Headers: *`"

/-- `Cors::ensure_usable_cors_rules` (lib.rs lines 242-268): when the
credentials policy is statically true, assert that none of the four
other policies is a wildcard; a failed `assert!` is modelled as
`Except.error` carrying the panic message. -/
def Cors.ensure_usable_cors_rules (self : Cors) : Except String Unit :=
  if self.allow_credentials.is_true then
    if self.allow_headers.is_wildcard then Except.error msgAllowHeaders
    else if self.allow_methods.is_wildcard then Except.error msgAllowMethods
    else if self.allow_origin.is_wildcard then Except.error msgAllowOrigin
    else if self.expose_headers.is_wildcard then Except.error msgExposeHeaders
    else Except.ok ()
  else Except.ok ()

/-- `CorsHandler` (lib.rs line 273): the validated configuration
wrapped as a request-handling stage. -/
structure CorsHandler where
  cors : Cors

/-- `Cors::into_handler` (lib.rs lines 237-240): validate, then wrap. -/
def Cors.into_handler (self : Cors) : Except String CorsHandler :=
  match self.ensure_usable_cors_rules with
  | Except.error e => Except.error e
  | Except.ok _ => Except.ok { cors := self }

/-- `HeaderMap::extend` with a 0/1-element iterator of pairs, as used
throughout `CorsHandler::handle` on names not yet in the map:
concatenation. -/
def HeaderMap.extendOpt (m : HeaderMap) (o : Option (HeaderName × HeaderValue)) : HeaderMap :=
  m ++ o.toList

/-- `CorsHandler::handle` (lib.rs lines 277-315).  Returns the mutated
response together with a flag recording whether `ctrl.call_next` was
invoked (the request was forwarded to the next pipeline stage).  The
`unreachable!` in the Occupied arm of the `Vary` insertion is modelled
as `Except.error` with its message.  `StatusCode::NO_CONTENT` is 204.
Note that in the source, `ctrl.call_next(req, depot, res).await` (line
314) sits after the if/else, outside both branches, so it runs for
every request, `OPTIONS` included. -/
def CorsHandler.handle (self : CorsHandler) (req : Request) (res : Response) :
    Except String (Response × Bool) :=
  let origin := req.getHeader .origin
  let headers : HeaderMap := []
  let headers := headers.extendOpt (self.cors.allow_origin.to_header origin req)
  let headers := headers.extendOpt (self.cors.allow_credentials.to_header origin req)
  let varyInserted : Except String HeaderMap :=
    match self.cors.vary.values with
    | [] => Except.ok headers
    | first :: rest =>
      if headers.any (fun p => p.1 == HeaderName.vary) then
        Except.error "no vary header inserted up to this point"
      else
        Except.ok (headers ++ (HeaderName.vary, first) :: rest.map (fun v => (HeaderName.vary, v)))
  match varyInserted with
  | Except.error e => Except.error e
  | Except.ok headers =>
    let branched :=
      if req.method == Method.options then
        let headers := headers.extendOpt (self.cors.allow_methods.to_header origin req)
        let headers := headers.extendOpt (self.cors.allow_headers.to_header origin req)
        let headers := headers.extendOpt (self.cors.max_age.to_header origin req)
        (headers, { res with status_code := some 204 })
      else
        (headers.extendOpt (self.cors.expose_headers.to_header origin req), res)
    let res := { branched.2 with headers := branched.2.headers ++ branched.1 }
    Except.ok (res, true)

/-! ### Helper lemmas: every policy emits only its own header name -/

theorem allow_origin_to_header_fst (a : AllowOrigin) (o : Option Bytes) (req : Request)
    (p : HeaderName × HeaderValue) (h : a.to_header o req = some p) :
    p.1 = HeaderName.accessControlAllowOrigin := by
  cases a <;> cases o <;> simp [AllowOrigin.to_header] at h
  case any.none => rw [← h]
  case any.some ov => rw [← h]
  case exact.some s ov => rw [← h.2]
  case predicate.some f ov => rw [← h.2]
  case mirrorRequest.some ov => rw [← h]

theorem allow_credentials_to_header_fst (a : AllowCredentials) (o : Option Bytes) (req : Request)
    (p : HeaderName × HeaderValue) (h : a.to_header o req = some p) :
    p.1 = HeaderName.accessControlAllowCredentials := by
  cases a <;> cases o <;> simp [AllowCredentials.to_header] at h
  case yes.none => rw [← h]
  case yes.some ov => rw [← h]
  case predicate.some f ov => rw [← h.2]

theorem allow_methods_to_header_fst (a : AllowMethods) (o : Option Bytes) (req : Request)
    (p : HeaderName × HeaderValue) (h : a.to_header o req = some p) :
    p.1 = HeaderName.accessControlAllowMethods := by
  cases a <;> simp [AllowMethods.to_header] at h
  case any => rw [← h]
  case list ms =>
    obtain ⟨v, hv, hp⟩ := h
    rw [← hp]
  case mirrorRequest =>
    cases hg : req.getHeader HeaderName.accessControlRequestMethod <;> simp [hg] at h
    rw [← h.2]

theorem allow_headers_to_header_fst (a : AllowHeaders) (o : Option Bytes) (req : Request)
    (p : HeaderName × HeaderValue) (h : a.to_header o req = some p) :
    p.1 = HeaderName.accessControlAllowHeaders := by
  cases a <;> simp [AllowHeaders.to_header] at h
  case any => rw [← h]
  case list ns =>
    obtain ⟨v, hv, hp⟩ := h
    rw [← hp]
  case mirrorRequest =>
    cases hg : req.getHeader HeaderName.accessControlRequestHeaders <;> simp [hg] at h
    rw [← h.2]

theorem expose_headers_to_header_fst (a : ExposeHeaders) (o : Option Bytes) (req : Request)
    (p : HeaderName × HeaderValue) (h : a.to_header o req = some p) :
    p.1 = HeaderName.accessControlExposeHeaders := by
  cases a <;> simp [ExposeHeaders.to_header] at h
  case any => rw [← h]
  case list ns =>
    obtain ⟨v, hv, hp⟩ := h
    rw [← hp]

theorem max_age_to_header_fst (m : MaxAge) (o : Option Bytes) (req : Request)
    (p : HeaderName × HeaderValue) (h : m.to_header o req = some p) :
    p.1 = HeaderName.accessControlMaxAge := by
  cases hs : m.seconds <;> simp [MaxAge.to_header, hs] at h
  rw [← h]

theorem any_vary_toList_false {o : Option (HeaderName × HeaderValue)}
    (h : ∀ p, o = some p → p.1 ≠ HeaderName.vary) :
    (o.toList.any (fun p => p.1 == HeaderName.vary)) = false := by
  cases o with
  | none => rfl
  | some p =>
    simp only [Option.toList_some, List.any_cons, List.any_nil, Bool.or_false]
    exact beq_eq_false_iff_ne.mpr (h p rfl)

/-! ### A closed-form description of `CorsHandler::handle` -/

/-- The header entries `CorsHandler::handle` itself contributes to the
response for a given configuration and request: the origin and
credentials entries, the vary entries, then the branch-specific
entries. -/
def Cors.addedHeaders (c : Cors) (req : Request) : HeaderMap :=
  let origin := req.getHeader .origin
  (c.allow_origin.to_header origin req).toList
    ++ (c.allow_credentials.to_header origin req).toList
    ++ c.vary.values.map (fun v => (HeaderName.vary, v))
    ++ (if req.method == Method.options then
          (c.allow_methods.to_header origin req).toList
            ++ (c.allow_headers.to_header origin req).toList
            ++ (c.max_age.to_header origin req).toList
        else (c.expose_headers.to_header origin req).toList)

/-- `CorsHandler::handle` never takes the `unreachable!` arm; it always
succeeds, appends exactly `addedHeaders` to the response headers, sets
status 204 exactly on `OPTIONS`, and always forwards to the next
stage. -/
theorem CorsHandler.handle_eq (c : Cors) (req : Request) (res : Response) :
    CorsHandler.handle { cors := c } req res =
      Except.ok
        ({ status_code := if req.method == Method.options then some 204 else res.status_code,
           headers := res.headers ++ c.addedHeaders req }, true) := by
  have hno :
      (((c.allow_origin.to_header (req.getHeader .origin) req).toList
          ++ (c.allow_credentials.to_header (req.getHeader .origin) req).toList).any
        (fun p => p.1 == HeaderName.vary)) = false := by
    simp only [List.any_append, Bool.or_eq_false_iff]
    constructor
    · exact any_vary_toList_false (fun p hp => by
        rw [allow_origin_to_header_fst _ _ _ _ hp]; intro hc; cases hc)
    · exact any_vary_toList_false (fun p hp => by
        rw [allow_credentials_to_header_fst _ _ _ _ hp]; intro hc; cases hc)
  unfold CorsHandler.handle
  simp only [HeaderMap.extendOpt, List.nil_append]
  cases hv : c.vary.values with
  | nil =>
    cases hm : req.method == Method.options <;>
      simp [Cors.addedHeaders, hv, hm, HeaderMap.extendOpt, List.append_assoc]
  | cons first rest =>
    simp only [hv, hno, Bool.false_eq_true, if_false]
    cases hm : req.method == Method.options <;>
      simp [Cors.addedHeaders, hv, hm, HeaderMap.extendOpt, List.append_assoc]

theorem filter_vary_toList_eq_nil (o : Option (HeaderName × HeaderValue))
    (h : ∀ p, o = some p → p.1 ≠ HeaderName.vary) :
    o.toList.filter (fun p => p.1 == HeaderName.vary) = [] := by
  cases o with
  | none => rfl
  | some p =>
    simp only [Option.toList_some, List.filter_cons, List.filter_nil]
    rw [beq_eq_false_iff_ne.mpr (h p rfl)]
    simp

/-- Names of the entries contributed by `handle`, split by branch. -/
theorem mem_addedHeaders_fst (c : Cors) (req : Request) (p : HeaderName × HeaderValue)
    (hp : p ∈ c.addedHeaders req) :
    p.1 = HeaderName.accessControlAllowOrigin ∨
    p.1 = HeaderName.accessControlAllowCredentials ∨
    p.1 = HeaderName.vary ∨
    ((req.method == Method.options) = true ∧
      (p.1 = HeaderName.accessControlAllowMethods ∨
        p.1 = HeaderName.accessControlAllowHeaders ∨
        p.1 = HeaderName.accessControlMaxAge)) ∨
    ((req.method == Method.options) = false ∧
      p.1 = HeaderName.accessControlExposeHeaders) := by
  cases hm : req.method == Method.options <;>
    simp only [Cors.addedHeaders, hm, if_true, if_false, Bool.false_eq_true,
      List.mem_append, Option.mem_toList, Option.mem_def, List.mem_map] at hp
  · rcases hp with ((ho | hc2) | hv) | he
    · exact Or.inl (allow_origin_to_header_fst _ _ _ _ ho)
    · exact Or.inr (Or.inl (allow_credentials_to_header_fst _ _ _ _ hc2))
    · obtain ⟨v, _, hpv⟩ := hv
      exact Or.inr (Or.inr (Or.inl (by rw [← hpv])))
    · exact Or.inr (Or.inr (Or.inr (Or.inr ⟨rfl, expose_headers_to_header_fst _ _ _ _ he⟩)))
  · rcases hp with ((ho | hc2) | hv) | (hmm | hhh) | hma
    · exact Or.inl (allow_origin_to_header_fst _ _ _ _ ho)
    · exact Or.inr (Or.inl (allow_credentials_to_header_fst _ _ _ _ hc2))
    · obtain ⟨v, _, hpv⟩ := hv
      exact Or.inr (Or.inr (Or.inl (by rw [← hpv])))
    · exact Or.inr (Or.inr (Or.inr (Or.inl ⟨rfl,
        Or.inl (allow_methods_to_header_fst _ _ _ _ hmm)⟩)))
    · exact Or.inr (Or.inr (Or.inr (Or.inl ⟨rfl,
        Or.inr (Or.inl (allow_headers_to_header_fst _ _ _ _ hhh))⟩)))
    · exact Or.inr (Or.inr (Or.inr (Or.inl ⟨rfl,
        Or.inr (Or.inr (max_age_to_header_fst _ _ _ _ hma))⟩)))

/-! ### Lemmas for the allocation model -/

theorem allocStep_count_le (grow : Nat → Nat → Nat) (st : Nat × Nat × Nat) (v : HeaderValue) :
    (allocStep grow st v).2.2 ≤ st.2.2 + 1 := by
  simp only [allocStep]
  split
  · exact Nat.le_refl _
  · exact Nat.le_succ _

theorem allocStep_count_ge (grow : Nat → Nat → Nat) (st : Nat × Nat × Nat) (v : HeaderValue) :
    st.2.2 ≤ (allocStep grow st v).2.2 := by
  simp only [allocStep]
  split
  · exact Nat.le_succ _
  · exact Nat.le_refl _

theorem foldl_allocStep_le (grow : Nat → Nat → Nat) (l : List HeaderValue) :
    ∀ st : Nat × Nat × Nat, (l.foldl (allocStep grow) st).2.2 ≤ st.2.2 + l.length := by
  induction l with
  | nil => intro st; exact Nat.le_refl _
  | cons v vs ih =>
    intro st
    calc (vs.foldl (allocStep grow) (allocStep grow st v)).2.2
        ≤ (allocStep grow st v).2.2 + vs.length := ih _
      _ ≤ (st.2.2 + 1) + vs.length :=
          Nat.add_le_add_right (allocStep_count_le grow st v) _
      _ = st.2.2 + (v :: vs).length := by
          simp [List.length_cons, Nat.add_assoc, Nat.add_comm 1]

theorem foldl_allocStep_ge (grow : Nat → Nat → Nat) (l : List HeaderValue) :
    ∀ st : Nat × Nat × Nat, st.2.2 ≤ (l.foldl (allocStep grow) st).2.2 := by
  induction l with
  | nil => intro st; exact Nat.le_refl _
  | cons v vs ih =>
    intro st
    exact Nat.le_trans (allocStep_count_ge grow st v) (ih _)

/-! ### Lemma for comma joining -/

theorem intercalate_comma_cons_cons (x y : Bytes) (l : List Bytes) :
    List.intercalate [(44 : UInt8)] (x :: y :: l)
      = x ++ (44 : UInt8) :: List.intercalate [(44 : UInt8)] (y :: l) := by
  simp [List.intercalate, List.intersperse_cons₂]

theorem foldl_comma_eq_intercalate (fst : Bytes) (rest : List Bytes) :
    rest.foldl (fun result val => result ++ (44 : UInt8) :: val) fst
      = List.intercalate [(44 : UInt8)] (fst :: rest) := by
  induction rest generalizing fst with
  | nil => simp [List.intercalate]
  | cons v vs ih =>
    rw [List.foldl_cons, ih, intercalate_comma_cons_cons]
    cases vs with
    | nil => simp [List.intercalate]
    | cons w ws =>
      rw [intercalate_comma_cons_cons, intercalate_comma_cons_cons]
      simp [List.append_assoc]

/-! ### Concrete demonstration inputs -/

/-- An `OPTIONS` request with no headers. -/
def optionsRequestDemo : Request := { method := Method.options, headers := [] }

/-- A `GET` request with no headers. -/
def getRequestDemo : Request := { method := Method.get, headers := [] }

/-- What `Cors::new().into_handler()` produces for `optionsRequestDemo`
on a fresh response: status 204, the three default Vary entries, and
the forwarded flag set. -/
def optionsOutDemo : Response × Bool :=
  ({ status_code := some 204,
     headers := preflight_request_headers.map (fun v => (HeaderName.vary, v)) }, true)

/-- What `Cors::new().into_handler()` produces for `getRequestDemo` on a
fresh response. -/
def getOutDemo : Response × Bool :=
  ({ status_code := none,
     headers := preflight_request_headers.map (fun v => (HeaderName.vary, v)) }, true)

/-- A permissive configuration with credentials switched on: every
wildcard assertion conflict at once. -/
def conflictedCorsDemo : Cors :=
  { Cors.permissive with allow_credentials := AllowCredentials.yes }

/-- A configuration whose vary set is the two one-byte names "a", "b". -/
def varyTwoCorsDemo : Cors := { Cors.new with vary := { list := [[97], [98]] } }

/-- The output of `varyTwoCorsDemo` for `getRequestDemo`: two separate
Vary entries. -/
def varyTwoOutDemo : Response × Bool :=
  ({ status_code := none,
     headers := [(HeaderName.vary, [97]), (HeaderName.vary, [98])] }, true)

/-- A mirror-origin, credentialed configuration. -/
def mirrorCorsDemo : Cors :=
  { Cors.new with
    allow_origin := AllowOrigin.mirror_request
    allow_credentials := AllowCredentials.yes }

/-- A `GET` request carrying an `Origin` header. -/
def originRequestDemo : Request :=
  { method := Method.get, headers := [(HeaderName.origin, strBytes "https://salvo.rs")] }

/-- The output of `mirrorCorsDemo` for `originRequestDemo`. -/
def mirrorOutDemo : Response × Bool :=
  ({ status_code := none,
     headers := (HeaderName.accessControlAllowOrigin, strBytes "https://salvo.rs")
       :: (HeaderName.accessControlAllowCredentials, strBytes "true")
       :: preflight_request_headers.map (fun v => (HeaderName.vary, v)) }, true)

/-! ### The claims -/

/-- C1 (code bug in the source): the claim says a preflight `OPTIONS`
request is never forwarded downstream, and the source comment (lib.rs
line 302, "Return results immediately upon preflight request") agrees,
but `ctrl.call_next` (line 314) sits outside the if/else and runs
unconditionally: whenever `handle` completes on an `OPTIONS` request,
the request was forwarded to the next pipeline stage. -/
theorem c1_options_request_still_forwarded (c : Cors) (req : Request) (res : Response)
    (out : Response × Bool) (_hm : req.method = Method.options)
    (h : CorsHandler.handle { cors := c } req res = Except.ok out) : out.2 = true := by
  rw [CorsHandler.handle_eq] at h
  injection h with h
  rw [← h]

/-- Witness: `Cors::new().into_handler()` forwards a concrete `OPTIONS`
request downstream. -/
theorem c1_options_request_still_forwarded_witness :
    optionsRequestDemo.method = Method.options ∧ optionsOutDemo.2 = true :=
  ⟨rfl, c1_options_request_still_forwarded Cors.new optionsRequestDemo Response.new
    optionsOutDemo rfl rfl⟩

/-- C2: building a handler from a configuration whose credentials policy
is statically true together with any wildcard policy aborts with one of
the four panic messages, each naming the conflicting pair; when
credentials is not statically true, or no policy is a wildcard,
construction succeeds. -/
theorem c2_ensure_usable_cors_rules_correct (c : Cors) :
    ((c.allow_credentials.is_true = true ∧
        (c.allow_headers.is_wildcard = true ∨ c.allow_methods.is_wildcard = true ∨
          c.allow_origin.is_wildcard = true ∨ c.expose_headers.is_wildcard = true)) →
      ∃ msg, c.into_handler = Except.error msg ∧
        (msg = msgAllowHeaders ∨ msg = msgAllowMethods ∨
          msg = msgAllowOrigin ∨ msg = msgExposeHeaders)) ∧
    ((c.allow_credentials.is_true = false ∨
        (c.allow_headers.is_wildcard = false ∧ c.allow_methods.is_wildcard = false ∧
          c.allow_origin.is_wildcard = false ∧ c.expose_headers.is_wildcard = false)) →
      c.into_handler = Except.ok { cors := c }) := by
  constructor
  · rintro ⟨hc, hw⟩
    by_cases h1 : c.allow_headers.is_wildcard = true
    · exact ⟨msgAllowHeaders,
        by simp [Cors.into_handler, Cors.ensure_usable_cors_rules, hc, h1], Or.inl rfl⟩
    · by_cases h2 : c.allow_methods.is_wildcard = true
      · exact ⟨msgAllowMethods,
          by simp [Cors.into_handler, Cors.ensure_usable_cors_rules, hc, h1, h2],
          Or.inr (Or.inl rfl)⟩
      · by_cases h3 : c.allow_origin.is_wildcard = true
        · exact ⟨msgAllowOrigin,
            by simp [Cors.into_handler, Cors.ensure_usable_cors_rules, hc, h1, h2, h3],
            Or.inr (Or.inr (Or.inl rfl))⟩
        · by_cases h4 : c.expose_headers.is_wildcard = true
          · exact ⟨msgExposeHeaders,
              by simp [Cors.into_handler, Cors.ensure_usable_cors_rules, hc, h1, h2, h3, h4],
              Or.inr (Or.inr (Or.inr rfl))⟩
          · simp [h1, h2, h3, h4] at hw
  · rintro (hc | ⟨h1, h2, h3, h4⟩)
    · simp [Cors.into_handler, Cors.ensure_usable_cors_rules, hc]
    · by_cases hc : c.allow_credentials.is_true = true
      · simp [Cors.into_handler, Cors.ensure_usable_cors_rules, hc, h1, h2, h3, h4]
      · simp [Cors.into_handler, Cors.ensure_usable_cors_rules, hc]

/-- Witness: the conflicted configuration aborts with a named message,
and `Cors::permissive()` (credentials off) builds fine. -/
theorem c2_ensure_usable_cors_rules_correct_witness :
    (conflictedCorsDemo.allow_credentials.is_true = true ∧
      conflictedCorsDemo.allow_headers.is_wildcard = true) ∧
    (∃ msg, conflictedCorsDemo.into_handler = Except.error msg ∧
      (msg = msgAllowHeaders ∨ msg = msgAllowMethods ∨
        msg = msgAllowOrigin ∨ msg = msgExposeHeaders)) ∧
    Cors.permissive.into_handler = Except.ok { cors := Cors.permissive } :=
  ⟨⟨rfl, rfl⟩,
   (c2_ensure_usable_cors_rules_correct conflictedCorsDemo).1 ⟨rfl, Or.inl rfl⟩,
   (c2_ensure_usable_cors_rules_correct Cors.permissive).2 (Or.inl rfl)⟩

/-- C3 counterexample: with vary names "a", "b" the handler emits two
separate `Vary` entries with values "a" and "b" (bytes 97 and 98), not
a single entry with the comma-joined value "a,b" (bytes 97, 44, 98): the
claim that the Vary header is added as one comma-joined entry fails. -/
theorem c3_vary_single_joined_entry_counterexample :
    ((CorsHandler.handle { cors := varyTwoCorsDemo } getRequestDemo Response.new).toOption.map
        (fun out => (out.1.headers.filter (fun p => p.1 == HeaderName.vary)).map Prod.snd))
      = some [[97], [98]] ∧
    ((CorsHandler.handle { cors := varyTwoCorsDemo } getRequestDemo Response.new).toOption.map
        (fun out => (out.1.headers.filter (fun p => p.1 == HeaderName.vary)).map Prod.snd))
      ≠ some [[97, 44, 98]] := by
  constructor
  · rfl
  · decide

/-- C3 (amended): for every request, the `Vary` entries of the response
are exactly the configured vary values in order, one header entry per
configured name (appended values of the same header name, the wire
equivalent of comma-joining, but not one comma-joined value); when the
configured set is empty, no `Vary` entry is added. -/
theorem c3_vary_entries_in_order (c : Cors) (req : Request) (out : Response × Bool)
    (h : CorsHandler.handle { cors := c } req Response.new = Except.ok out) :
    (out.1.headers.filter (fun p => p.1 == HeaderName.vary)).map Prod.snd = c.vary.values := by
  rw [CorsHandler.handle_eq] at h
  injection h with h
  rw [← h]
  have h1 := filter_vary_toList_eq_nil
    (c.allow_origin.to_header (req.getHeader HeaderName.origin) req)
    (fun p hp => by rw [allow_origin_to_header_fst _ _ _ _ hp]; intro hcc; cases hcc)
  have h2 := filter_vary_toList_eq_nil
    (c.allow_credentials.to_header (req.getHeader HeaderName.origin) req)
    (fun p hp => by rw [allow_credentials_to_header_fst _ _ _ _ hp]; intro hcc; cases hcc)
  have h3 := filter_vary_toList_eq_nil
    (c.allow_methods.to_header (req.getHeader HeaderName.origin) req)
    (fun p hp => by rw [allow_methods_to_header_fst _ _ _ _ hp]; intro hcc; cases hcc)
  have h4 := filter_vary_toList_eq_nil
    (c.allow_headers.to_header (req.getHeader HeaderName.origin) req)
    (fun p hp => by rw [allow_headers_to_header_fst _ _ _ _ hp]; intro hcc; cases hcc)
  have h5 := filter_vary_toList_eq_nil
    (c.max_age.to_header (req.getHeader HeaderName.origin) req)
    (fun p hp => by rw [max_age_to_header_fst _ _ _ _ hp]; intro hcc; cases hcc)
  have h6 := filter_vary_toList_eq_nil
    (c.expose_headers.to_header (req.getHeader HeaderName.origin) req)
    (fun p hp => by rw [expose_headers_to_header_fst _ _ _ _ hp]; intro hcc; cases hcc)
  cases hm : req.method == Method.options <;>
    simp [Cors.addedHeaders, Response.new, hm, List.filter_append, h1, h2, h3, h4, h5, h6,
      List.filter_map, Function.comp_def, List.map_map]

/-- Witness: the vary entries of the two-name configuration are the two
configured values in order. -/
theorem c3_vary_entries_in_order_witness :
    CorsHandler.handle { cors := varyTwoCorsDemo } getRequestDemo Response.new =
      Except.ok varyTwoOutDemo ∧
    (varyTwoOutDemo.1.headers.filter (fun p => p.1 == HeaderName.vary)).map Prod.snd =
      varyTwoCorsDemo.vary.values :=
  ⟨rfl, c3_vary_entries_in_order varyTwoCorsDemo getRequestDemo varyTwoOutDemo rfl⟩

/-- C4: every request with method `OPTIONS` gets response status 204
(`StatusCode::NO_CONTENT`, lib.rs line 308). -/
theorem c4_options_status_204 (c : Cors) (req : Request) (res : Response)
    (out : Response × Bool) (hm : req.method = Method.options)
    (h : CorsHandler.handle { cors := c } req res = Except.ok out) :
    out.1.status_code = some 204 := by
  rw [CorsHandler.handle_eq] at h
  injection h with h
  rw [← h]
  simp [hm]

/-- Witness: a concrete `OPTIONS` request receives status 204. -/
theorem c4_options_status_204_witness :
    optionsRequestDemo.method = Method.options ∧ optionsOutDemo.1.status_code = some 204 :=
  ⟨rfl, c4_options_status_204 Cors.new optionsRequestDemo Response.new optionsOutDemo rfl rfl⟩

/-- C5: the headers `handle` itself adds respect the branch split: on a
fresh response, non-`OPTIONS` responses never carry
`Access-Control-Allow-Methods`, `Access-Control-Allow-Headers`, or
`Access-Control-Max-Age`, and `OPTIONS` responses never carry
`Access-Control-Expose-Headers`. -/
theorem c5_branch_split_headers (c : Cors) (req : Request) (out : Response × Bool)
    (h : CorsHandler.handle { cors := c } req Response.new = Except.ok out) :
    (req.method ≠ Method.options →
      ∀ p ∈ out.1.headers,
        p.1 ≠ HeaderName.accessControlAllowMethods ∧
        p.1 ≠ HeaderName.accessControlAllowHeaders ∧
        p.1 ≠ HeaderName.accessControlMaxAge) ∧
    (req.method = Method.options →
      ∀ p ∈ out.1.headers, p.1 ≠ HeaderName.accessControlExposeHeaders) := by
  rw [CorsHandler.handle_eq] at h
  injection h with h
  rw [← h]
  constructor
  · intro hm p hp
    simp only [Response.new, List.nil_append] at hp
    have hmb : (req.method == Method.options) = false := beq_eq_false_iff_ne.mpr hm
    rcases mem_addedHeaders_fst c req p hp with h' | h' | h' | ⟨hb, _⟩ | ⟨_, h'⟩
    · rw [h']; decide
    · rw [h']; decide
    · rw [h']; decide
    · rw [hmb] at hb; simp at hb
    · rw [h']; decide
  · intro hm p hp
    simp only [Response.new, List.nil_append] at hp
    have hmb : (req.method == Method.options) = true := by rw [hm]; rfl
    rcases mem_addedHeaders_fst c req p hp with h' | h' | h' | ⟨_, h'⟩ | ⟨hb, _⟩
    · rw [h']; decide
    · rw [h']; decide
    · rw [h']; decide
    · rcases h' with h' | h' | h' <;> (rw [h']; decide)
    · rw [hmb] at hb; simp at hb

/-- Witness: on a concrete `GET` request the only added headers are the
Vary entries, and their name differs from all three preflight-only
names. -/
theorem c5_branch_split_headers_witness :
    getRequestDemo.method ≠ Method.options ∧
    ((HeaderName.vary, strBytes "origin") : HeaderName × HeaderValue) ∈ getOutDemo.1.headers ∧
    ((HeaderName.vary, strBytes "origin") : HeaderName × HeaderValue).1 ≠
        HeaderName.accessControlAllowMethods ∧
    ((HeaderName.vary, strBytes "origin") : HeaderName × HeaderValue).1 ≠
        HeaderName.accessControlAllowHeaders ∧
    ((HeaderName.vary, strBytes "origin") : HeaderName × HeaderValue).1 ≠
        HeaderName.accessControlMaxAge :=
  ⟨by decide,
   by decide,
   ((c5_branch_split_headers Cors.new getRequestDemo getOutDemo rfl).1 (by decide)
      (HeaderName.vary, strBytes "origin") (by decide)).1,
   ((c5_branch_split_headers Cors.new getRequestDemo getOutDemo rfl).1 (by decide)
      (HeaderName.vary, strBytes "origin") (by decide)).2.1,
   ((c5_branch_split_headers Cors.new getRequestDemo getOutDemo rfl).1 (by decide)
      (HeaderName.vary, strBytes "origin") (by decide)).2.2⟩

/-- C6: whatever entries the origin and credentials policies return for
the request `Origin` value are included in the response headers, on the
`OPTIONS` branch and the non-`OPTIONS` branch alike. -/
theorem c6_origin_credentials_always_merged (c : Cors) (req : Request) (res : Response)
    (out : Response × Bool)
    (h : CorsHandler.handle { cors := c } req res = Except.ok out) :
    (∀ p, c.allow_origin.to_header (req.getHeader HeaderName.origin) req = some p →
      p ∈ out.1.headers) ∧
    (∀ p, c.allow_credentials.to_header (req.getHeader HeaderName.origin) req = some p →
      p ∈ out.1.headers) := by
  rw [CorsHandler.handle_eq] at h
  injection h with h
  rw [← h]
  constructor <;> intro p hp <;> simp [Cors.addedHeaders, hp]

/-- Witness: the mirrored origin entry and the credentials entry both
appear in the response for a concrete credentialed configuration. -/
theorem c6_origin_credentials_always_merged_witness :
    CorsHandler.handle { cors := mirrorCorsDemo } originRequestDemo Response.new =
      Except.ok mirrorOutDemo ∧
    (HeaderName.accessControlAllowOrigin, strBytes "https://salvo.rs") ∈
      mirrorOutDemo.1.headers ∧
    (HeaderName.accessControlAllowCredentials, strBytes "true") ∈ mirrorOutDemo.1.headers :=
  ⟨rfl,
   (c6_origin_credentials_always_merged mirrorCorsDemo originRequestDemo Response.new
      mirrorOutDemo rfl).1 _ rfl,
   (c6_origin_credentials_always_merged mirrorCorsDemo originRequestDemo Response.new
      mirrorOutDemo rfl).2 _ rfl⟩

/-- C7: `separated_by_commas` returns nothing for the empty sequence
and, for a non-empty sequence, one value that is the given values in
their order joined by single comma bytes with no surrounding
whitespace. -/
theorem c7_separated_by_commas_join :
    separated_by_commas [] = none ∧
    ∀ (v : HeaderValue) (vs : List HeaderValue),
      separated_by_commas (v :: vs) = some (List.intercalate [(44 : UInt8)] (v :: vs)) := by
  refine ⟨rfl, ?_⟩
  intro v vs
  simp [separated_by_commas, foldl_comma_eq_intercalate]

/-- C8 counterexample: with the two one-byte values "a", "b" the loop
performs two allocations (the initial `BytesMut::from` buffer is exactly
full, so the first `reserve` must reallocate under every growth policy):
the claim of exactly one up-front allocation fails. -/
theorem c8_single_allocation_counterexample :
    separated_by_commas_alloc_count exactGrow [[97], [98]] = 2 ∧
    separated_by_commas_alloc_count exactGrow [[97], [98]] ≠ 1 := by decide

/-- C8 (amended): `separated_by_commas` allocates once for the first
value and then reserves per iteration, not up front: the allocation
count is at least 1, at most one per value, and at least 2 whenever
there are two or more values — under every growth policy, so never
exactly one allocation for multi-value lists. -/
theorem c8_alloc_bounds (grow : Nat → Nat → Nat) (fst : HeaderValue) (rest : List HeaderValue) :
    1 ≤ separated_by_commas_alloc_count grow (fst :: rest) ∧
    separated_by_commas_alloc_count grow (fst :: rest) ≤ (fst :: rest).length ∧
    (rest ≠ [] → 2 ≤ separated_by_commas_alloc_count grow (fst :: rest)) := by
  refine ⟨?_, ?_, ?_⟩
  · have := foldl_allocStep_ge grow rest (fst.length, fst.length, 1)
    simpa [separated_by_commas_alloc_count] using this
  · have := foldl_allocStep_le grow rest (fst.length, fst.length, 1)
    simpa [separated_by_commas_alloc_count, Nat.add_comm] using this
  · intro hne
    cases rest with
    | nil => cases hne rfl
    | cons w ws =>
      have hstep : allocStep grow (fst.length, fst.length, 1) w
          = (fst.length + (w.length + 1), grow fst.length (w.length + 1), 2) := by
        simp [allocStep, Nat.sub_self]
      have hge := foldl_allocStep_ge grow ws (allocStep grow (fst.length, fst.length, 1) w)
      rw [hstep] at hge
      simpa [separated_by_commas_alloc_count, List.foldl_cons, hstep] using hge

/-- Witness: the bounds at the concrete two-value input under the
minimal growth policy. -/
theorem c8_alloc_bounds_witness :
    1 ≤ separated_by_commas_alloc_count exactGrow [[97], [98]] ∧
    separated_by_commas_alloc_count exactGrow [[97], [98]] ≤ 2 ∧
    2 ≤ separated_by_commas_alloc_count exactGrow [[97], [98]] :=
  ⟨(c8_alloc_bounds exactGrow [97] [[98]]).1,
   (c8_alloc_bounds exactGrow [97] [[98]]).2.1,
   (c8_alloc_bounds exactGrow [97] [[98]]).2.2 (by decide)⟩

/-- C9: the Occupied arm of the `Vary` insertion (the `unreachable!`
panic, lib.rs line 292) is never taken: for every configuration,
request, and initial response, `handle` completes successfully, because
the per-request map is freshly created and only the origin and
credentials names can precede the single Vary insertion. -/
theorem c9_unreachable_arm_never_taken (c : Cors) (req : Request) (res : Response) :
    ∃ out, CorsHandler.handle { cors := c } req res = Except.ok out :=
  ⟨_, CorsHandler.handle_eq c req res⟩

/-- C10: `Cors::very_permissive().into_handler()` succeeds: credentials
is statically true, but the three mirror-request policies and the
default expose-headers policy are not wildcards, so no assertion in
`ensure_usable_cors_rules` fires. -/
theorem c10_very_permissive_into_handler_ok :
    Cors.very_permissive.into_handler = Except.ok { cors := Cors.very_permissive } := rfl

end SalvoCors
